import Mathlib

/-!
Shallow embedding of the OAuth state store of this repository
(`src/hono/src/services/state_manager.ts` and the identical state module in
`src/unnamed/part_005`) and of the GitHub OAuth callback handler
(`src/hono/src/oauth/services/github.ts`).

Modelling choices:
* the module-level `stateStore` JavaScript `Map` becomes an explicit
  association list with JS-`Map` semantics (`mapGet` finds the entry of a
  key, `mapSet` replaces in place or appends, `mapDelete` removes the
  entries of a key); each stateful operation takes the store and returns
  the updated store;
* `Date.now()` becomes an explicit `now : Int` parameter (JS millisecond
  timestamps with exact integer arithmetic);
* `crypto.randomUUID()` is an external runtime API; the generated token
  becomes an explicit parameter of `createState`, and its documented
  contract (collision-resistant fresh tokens) becomes a hypothesis where
  a claim needs it;
* `console.log` / `console.warn` calls are dropped (no observable effect
  on the store or the return values);
* the handler `handleGithubCallback` is modelled up to the point where it
  starts the code-for-token network exchange; its observable actions on
  the state store are recorded as an event trace.
-/

/-- StateData from `src/hono/src/state/types.ts`: the stored payload plus
the creation timestamp in milliseconds. -/
structure StateData (α : Type) where
  data : α
  createdAt : Int
deriving Repr, DecidableEq

/-- The state store: the JS `Map` from state strings to `StateData`,
embedded as an association list. -/
abbrev Store (α : Type) := List (String × StateData α)

/-- STATE_EXPIRATION_MS = 10 * 60 * 1000 from the source (10 minutes in
milliseconds). -/
def STATE_EXPIRATION_MS : Int := 10 * 60 * 1000

/-- JS `Map.get`: the value stored under a key, `none` when absent. -/
def mapGet {α : Type} : Store α → String → Option (StateData α)
  | [], _ => none
  | (k, v) :: rest, t => if k = t then some v else mapGet rest t

/-- JS `Map.set`: replaces the value of an existing key in place,
otherwise appends the new entry at the end. -/
def mapSet {α : Type} : Store α → String → StateData α → Store α
  | [], t, v => [(t, v)]
  | (k, w) :: rest, t, v =>
      if k = t then (t, v) :: rest else (k, w) :: mapSet rest t v

/-- JS `Map.delete`: removes the entries stored under a key. -/
def mapDelete {α : Type} : Store α → String → Store α
  | [], _ => []
  | (k, v) :: rest, t =>
      if k = t then mapDelete rest t else (k, v) :: mapDelete rest t

/-- The keys of a store. -/
def keys {α : Type} (s : Store α) : List String := s.map Prod.fst

/-- clearExpiredStateData from the source: iterates over all entries and
deletes every entry with `now - createdAt > STATE_EXPIRATION_MS`. -/
def clearExpiredStateData {α : Type} (now : Int) : Store α → Store α
  | [] => []
  | (k, sd) :: rest =>
      if now - sd.createdAt > STATE_EXPIRATION_MS then
        clearExpiredStateData now rest
      else
        (k, sd) :: clearExpiredStateData now rest

/-- createState from the source: first runs `clearExpiredStateData`, then
generates a token (`crypto.randomUUID()`, here the explicit parameter
`token`), stores the payload with `createdAt := now` under it, and returns
the token together with the updated store. -/
def createState {α : Type} (token : String) (now : Int) (data : α)
    (s : Store α) : String × Store α :=
  let s1 := clearExpiredStateData now s
  (token, mapSet s1 token ⟨data, now⟩)

/-- getStateData from the source: when the token is absent returns `null`
(`none`) and leaves the store alone; when the entry is present but
`now - createdAt > STATE_EXPIRATION_MS` deletes it and returns `none`;
otherwise returns the stored payload and leaves the store alone. -/
def getStateData {α : Type} (token : String) (now : Int) (s : Store α) :
    Option α × Store α :=
  match mapGet s token with
  | none => (none, s)
  | some sd =>
      if now - sd.createdAt > STATE_EXPIRATION_MS then
        (none, mapDelete s token)
      else
        (some sd.data, s)

/-- deleteStateData from the source: `stateStore.delete(state)`; the
branch on the `delete` result only chooses a log line. -/
def deleteStateData {α : Type} (token : String) (s : Store α) : Store α :=
  mapDelete s token

/-- A sequence of `createState` calls, one per `(token, payload)` pair,
all at time `now`; returns the list of returned tokens and the final
store. -/
def createStates {α : Type} : List (String × α) → Int → Store α →
    List String × Store α
  | [], _, s => ([], s)
  | (t, d) :: rest, now, s =>
      let r := createState t now d s
      let r2 := createStates rest now r.2
      (r.1 :: r2.1, r2.2)

/-- Observable actions of the GitHub callback handler, in order. -/
inductive Event where
  | getState (token : String)
  | deleteState (token : String)
  | tokenExchange (code : String)
  | respond (status : Nat)
deriving Repr, DecidableEq

/-- The environment variables read by `handleGithubCallback`. -/
structure Env where
  clientId : Option String
  clientSecret : Option String
  redirectUri : Option String

/-- handleGithubCallback from `src/hono/src/oauth/services/github.ts`,
modelled up to the start of the code-for-token exchange: missing `code`
or `state` query parameter gives a 400 response; a `getStateData` miss
gives a 401 response; on a hit the handler calls `deleteStateData`, then
checks the environment variables (500 when incomplete) and only then
starts the token exchange. The trace records the store operations, the
exchange start and the response class; everything after the exchange
starts is network interaction outside the store's contract. -/
def handleGithubCallback {α : Type} (codeQ stateQ : Option String)
    (env : Env) (now : Int) (s : Store α) : List Event × Store α :=
  match codeQ with
  | none => ([Event.respond 400], s)
  | some code =>
    match stateQ with
    | none => ([Event.respond 400], s)
    | some st =>
      let r := getStateData st now s
      match r.1 with
      | none => ([Event.getState st, Event.respond 401], r.2)
      | some _ =>
        let s2 := deleteStateData st r.2
        match env.clientId, env.clientSecret, env.redirectUri with
        | some _, some _, some _ =>
            ([Event.getState st, Event.deleteState st,
              Event.tokenExchange code], s2)
        | _, _, _ =>
            ([Event.getState st, Event.deleteState st,
              Event.respond 500], s2)

/-! Basic lemmas about the map operations. -/

theorem mapGet_mapDelete_self {α : Type} (s : Store α) (t : String) :
    mapGet (mapDelete s t) t = none := by
  induction s with
  | nil => rfl
  | cons p rest ih =>
      obtain ⟨k, v⟩ := p
      by_cases h : k = t
      · simp [mapDelete, h, ih]
      · simp [mapDelete, mapGet, h, ih]

theorem mapDelete_eq_self_of_get_none {α : Type} (s : Store α)
    (t : String) (h : mapGet s t = none) : mapDelete s t = s := by
  induction s with
  | nil => rfl
  | cons p rest ih =>
      obtain ⟨k, v⟩ := p
      by_cases hk : k = t
      · simp [mapGet, hk] at h
      · simp [mapGet, hk] at h
        simp [mapDelete, hk, ih h]

theorem mapGet_mapSet_self {α : Type} (s : Store α) (t : String)
    (v : StateData α) : mapGet (mapSet s t v) t = some v := by
  induction s with
  | nil => simp [mapSet, mapGet]
  | cons p rest ih =>
      obtain ⟨k, w⟩ := p
      by_cases h : k = t
      · simp [mapSet, h, mapGet]
      · simp [mapSet, mapGet, h, ih]

theorem mapGet_eq_none_iff {α : Type} (s : Store α) (t : String) :
    mapGet s t = none ↔ t ∉ keys s := by
  induction s with
  | nil => simp [mapGet, keys]
  | cons p rest ih =>
      obtain ⟨k, v⟩ := p
      by_cases h : k = t
      · simp [mapGet, keys, h]
      · simp only [mapGet, if_neg h, keys, List.map_cons, List.mem_cons]
        rw [show (rest.map Prod.fst) = keys rest from rfl] at *
        rw [ih]
        constructor
        · intro hn hmem
          rcases hmem with he | hm
          · exact h he.symm
          · exact hn hm
        · intro hn
          exact fun hm => hn (Or.inr hm)

theorem mapGet_eq_some_mem {α : Type} (s : Store α) (t : String)
    (sd : StateData α) (h : mapGet s t = some sd) : (t, sd) ∈ s := by
  induction s with
  | nil => simp [mapGet] at h
  | cons p rest ih =>
      obtain ⟨k, v⟩ := p
      by_cases hk : k = t
      · subst hk
        simp [mapGet] at h
        subst h
        exact List.mem_cons_self _ _
      · simp [mapGet, hk] at h
        exact List.mem_cons_of_mem _ (ih h)

theorem mem_mapSet_of_ne {α : Type} (s : Store α) (t k : String)
    (v sd : StateData α) (hk : k ≠ t) :
    (k, sd) ∈ mapSet s t v ↔ (k, sd) ∈ s := by
  induction s with
  | nil => simp [mapSet, hk]
  | cons p rest ih =>
      obtain ⟨k2, w⟩ := p
      by_cases h2 : k2 = t
      · subst h2
        simp [mapSet]
        constructor
        · intro hc
          rcases hc with he | hm
          · exact absurd he.1 hk
          · exact Or.inr hm
        · intro hc
          rcases hc with he | hm
          · exact absurd he.1 hk
          · exact Or.inr hm
      · simp [mapSet, h2, List.mem_cons, ih]

theorem mem_clearExpiredStateData {α : Type} (now : Int) (s : Store α)
    (k : String) (sd : StateData α) :
    (k, sd) ∈ clearExpiredStateData now s ↔
      (k, sd) ∈ s ∧ ¬ now - sd.createdAt > STATE_EXPIRATION_MS := by
  induction s with
  | nil => simp [clearExpiredStateData]
  | cons p rest ih =>
      obtain ⟨k2, w⟩ := p
      by_cases h : now - w.createdAt > STATE_EXPIRATION_MS
      · simp only [clearExpiredStateData, if_pos h, ih, List.mem_cons]
        constructor
        · intro hc
          exact ⟨Or.inr hc.1, hc.2⟩
        · rintro ⟨he | hm, hne⟩
          · cases he
            exact absurd h hne
          · exact ⟨hm, hne⟩
      · simp only [clearExpiredStateData, if_neg h, List.mem_cons, ih]
        constructor
        · rintro (he | ⟨hm, hne⟩)
          · cases he
            exact ⟨Or.inl rfl, h⟩
          · exact ⟨Or.inr hm, hne⟩
        · rintro ⟨he | hm, hne⟩
          · exact Or.inl he
          · exact Or.inr ⟨hm, hne⟩

theorem clearExpiredStateData_sublist {α : Type} (now : Int)
    (s : Store α) : (clearExpiredStateData now s).Sublist s := by
  induction s with
  | nil => simp [clearExpiredStateData]
  | cons p rest ih =>
      obtain ⟨k, sd⟩ := p
      by_cases h : now - sd.createdAt > STATE_EXPIRATION_MS
      · simp only [clearExpiredStateData, if_pos h]
        exact List.Sublist.cons _ ih
      · simp only [clearExpiredStateData, if_neg h]
        exact List.Sublist.cons₂ _ ih

theorem mapGet_clearExpiredStateData_none {α : Type} (now : Int)
    (s : Store α) (t : String) (h : mapGet s t = none) :
    mapGet (clearExpiredStateData now s) t = none := by
  rw [mapGet_eq_none_iff] at h ⊢
  intro hmem
  exact h (((clearExpiredStateData_sublist now s).map Prod.fst).subset hmem)

theorem nodup_keys_cons {α : Type} {k : String} {w : StateData α}
    {rest : Store α} (h : (keys ((k, w) :: rest)).Nodup) :
    k ∉ keys rest ∧ (keys rest).Nodup := by
  have h0 : (k :: keys rest).Nodup := h
  exact List.nodup_cons.1 h0

theorem mapGet_clearExpired_of_get_some {α : Type} (now : Int)
    (s : Store α) (t : String) (sd : StateData α)
    (hnd : (keys s).Nodup) (hget : mapGet s t = some sd) :
    mapGet (clearExpiredStateData now s) t =
      if now - sd.createdAt > STATE_EXPIRATION_MS then none else some sd := by
  induction s with
  | nil => simp [mapGet] at hget
  | cons p rest ih =>
      obtain ⟨k, w⟩ := p
      have hnd1 : k ∉ keys rest := (nodup_keys_cons hnd).1
      have hnd2 : (keys rest).Nodup := (nodup_keys_cons hnd).2
      by_cases hk : k = t
      · subst hk
        have hws : w = sd := by simpa [mapGet] using hget
        rw [← hws]
        by_cases h : now - w.createdAt > STATE_EXPIRATION_MS
        · simp only [clearExpiredStateData, if_pos h, if_pos h]
          exact mapGet_clearExpiredStateData_none now rest k
            ((mapGet_eq_none_iff rest k).2 hnd1)
        · simp [clearExpiredStateData, if_neg h, mapGet]
      · have hget2 : mapGet rest t = some sd := by
          simpa [mapGet, hk] using hget
        by_cases h : now - w.createdAt > STATE_EXPIRATION_MS
        · simp only [clearExpiredStateData, if_pos h]
          exact ih hnd2 hget2
        · simp only [clearExpiredStateData, if_neg h, mapGet, if_neg hk]
          exact ih hnd2 hget2

theorem mem_keys_mapSet {α : Type} (s : Store α) (t x : String)
    (v : StateData α) :
    x ∈ keys (mapSet s t v) ↔ x ∈ keys s ∨ x = t := by
  induction s with
  | nil => simp [mapSet, keys]
  | cons p rest ih =>
      obtain ⟨k, w⟩ := p
      by_cases hk : k = t
      · subst hk
        have e1 : keys (mapSet ((k, w) :: rest) k v) = k :: keys rest := by
          simp [mapSet, keys]
        have e2 : keys ((k, w) :: rest) = k :: keys rest := rfl
        rw [e1, e2]
        constructor
        · exact fun h => Or.inl h
        · rintro (hm | he)
          · exact hm
          · rw [he]
            exact List.mem_cons_self _ _
      · have e1 : keys (mapSet ((k, w) :: rest) t v) =
            k :: keys (mapSet rest t v) := by
          simp [mapSet, keys, hk]
        have e2 : keys ((k, w) :: rest) = k :: keys rest := rfl
        rw [e1, e2, List.mem_cons, List.mem_cons, ih]
        constructor
        · rintro (he | hm | he)
          · exact Or.inl (Or.inl he)
          · exact Or.inl (Or.inr hm)
          · exact Or.inr he
        · rintro ((he | hm) | he)
          · exact Or.inl he
          · exact Or.inr (Or.inl hm)
          · exact Or.inr (Or.inr he)

theorem nodup_keys_mapSet {α : Type} (s : Store α) (t : String)
    (v : StateData α) (h : (keys s).Nodup) :
    (keys (mapSet s t v)).Nodup := by
  induction s with
  | nil => simp [mapSet, keys]
  | cons p rest ih =>
      obtain ⟨k, w⟩ := p
      have h1 : k ∉ keys rest := (nodup_keys_cons h).1
      have h2 : (keys rest).Nodup := (nodup_keys_cons h).2
      by_cases hk : k = t
      · subst hk
        have e1 : keys (mapSet ((k, w) :: rest) k v) = k :: keys rest := by
          simp [mapSet, keys]
        rw [e1]
        exact List.nodup_cons.2 ⟨h1, h2⟩
      · have e1 : keys (mapSet ((k, w) :: rest) t v) =
            k :: keys (mapSet rest t v) := by
          simp [mapSet, keys, hk]
        rw [e1, List.nodup_cons]
        refine ⟨fun hmem => ?_, ih h2⟩
        rcases (mem_keys_mapSet rest t k v).1 hmem with hm | he
        · exact h1 hm
        · exact hk he

theorem nodup_keys_clearExpiredStateData {α : Type} (now : Int)
    (s : Store α) (h : (keys s).Nodup) :
    (keys (clearExpiredStateData now s)).Nodup :=
  ((clearExpiredStateData_sublist now s).map Prod.fst).nodup h

theorem getStateData_of_get_none {α : Type} (t : String) (now : Int)
    (s : Store α) (hget : mapGet s t = none) :
    getStateData t now s = (none, s) := by
  unfold getStateData
  rw [hget]

theorem getStateData_of_get_some {α : Type} (t : String) (now : Int)
    (s : Store α) (sd : StateData α) (hget : mapGet s t = some sd) :
    getStateData t now s =
      if now - sd.createdAt > STATE_EXPIRATION_MS then
        (none, mapDelete s t)
      else
        (some sd.data, s) := by
  unfold getStateData
  rw [hget]

theorem createStates_tokens {α : Type} (toks : List (String × α))
    (now : Int) (s : Store α) :
    (createStates toks now s).1 = toks.map Prod.fst := by
  induction toks generalizing s with
  | nil => rfl
  | cons p rest ih =>
      obtain ⟨t, d⟩ := p
      simp [createStates, createState, ih]

theorem nodup_keys_createState {α : Type} (t : String) (now : Int)
    (d : α) (s : Store α) (h : (keys s).Nodup) :
    (keys (createState t now d s).2).Nodup :=
  nodup_keys_mapSet _ _ _ (nodup_keys_clearExpiredStateData now s h)

theorem nodup_keys_createStates {α : Type} (toks : List (String × α))
    (now : Int) (s : Store α) (h : (keys s).Nodup) :
    (keys (createStates toks now s).2).Nodup := by
  induction toks generalizing s with
  | nil => exact h
  | cons p rest ih =>
      obtain ⟨t, d⟩ := p
      exact ih _ (nodup_keys_createState t now d s h)

/-! Claim theorems. -/

/-- C1: an entry created at `sd.createdAt` whose age at `now` exceeds the
TTL (600000 ms) makes `getStateData` return NotFound (`none`) and removes
the entry, so a subsequent `getStateData` call returns NotFound at every
simulated time, an earlier one included; and at any time `m` the call
returns the payload exactly when `m - createdAt ≤ TTL`. -/
theorem getStateData_expiry {α : Type} (s : Store α) (t : String)
    (sd : StateData α) (now : Int)
    (hget : mapGet s t = some sd)
    (hexp : now - sd.createdAt > STATE_EXPIRATION_MS) :
    getStateData t now s = (none, mapDelete s t)
    ∧ mapGet (mapDelete s t) t = none
    ∧ (∀ later : Int,
        getStateData t later (mapDelete s t) = (none, mapDelete s t))
    ∧ (∀ m : Int, (getStateData t m s).1 =
        if m - sd.createdAt > STATE_EXPIRATION_MS then none
        else some sd.data) := by
  refine ⟨?_, mapGet_mapDelete_self _ _, ?_, ?_⟩
  · rw [getStateData_of_get_some _ _ _ _ hget, if_pos hexp]
  · intro later
    exact getStateData_of_get_none _ _ _ (mapGet_mapDelete_self _ _)
  · intro m
    rw [getStateData_of_get_some _ _ _ _ hget]
    by_cases hm : m - sd.createdAt > STATE_EXPIRATION_MS
    · rw [if_pos hm, if_pos hm]
    · rw [if_neg hm, if_neg hm]

/-- Witness for C1 on a concrete one-entry store, read past the TTL. -/
theorem getStateData_expiry_witness :
    mapGet [("a", (⟨7, 0⟩ : StateData Nat))] "a" = some ⟨7, 0⟩
    ∧ ((600001 : Int) - (0 : Int) > STATE_EXPIRATION_MS)
    ∧ (getStateData "a" 600001 [("a", (⟨7, 0⟩ : StateData Nat))] =
        (none, mapDelete [("a", (⟨7, 0⟩ : StateData Nat))] "a")
      ∧ mapGet (mapDelete [("a", (⟨7, 0⟩ : StateData Nat))] "a") "a" = none
      ∧ (∀ later : Int,
          getStateData "a" later
              (mapDelete [("a", (⟨7, 0⟩ : StateData Nat))] "a") =
            (none, mapDelete [("a", (⟨7, 0⟩ : StateData Nat))] "a"))
      ∧ (∀ m : Int,
          (getStateData "a" m [("a", (⟨7, 0⟩ : StateData Nat))]).1 =
            if m - (0 : Int) > STATE_EXPIRATION_MS then none
            else some 7)) :=
  ⟨by decide, by decide,
    getStateData_expiry [("a", ⟨7, 0⟩)] "a" ⟨7, 0⟩ 600001
      (by decide) (by decide)⟩

/-- C2: reading the token returned by `createState` at any time within
the TTL of creation (the creation instant included) returns exactly the
stored payload. -/
theorem createState_roundTrip {α : Type} (s : Store α) (t : String)
    (d : α) (now later : Int)
    (h : later - now ≤ STATE_EXPIRATION_MS) :
    (getStateData t later (createState t now d s).2).1 = some d := by
  have hg : mapGet (createState t now d s).2 t = some ⟨d, now⟩ :=
    mapGet_mapSet_self _ _ _
  rw [getStateData_of_get_some _ _ _ _ hg]
  have hc : ¬ later - (StateData.mk d now).createdAt >
      STATE_EXPIRATION_MS := not_lt.2 h
  rw [if_neg hc]

/-- Witness for C2 on a concrete payload, read at the creation time. -/
theorem createState_roundTrip_witness :
    ((5 : Int) - (0 : Int) ≤ STATE_EXPIRATION_MS)
    ∧ (getStateData "a" 5 (createState "a" 0 (3 : Nat) []).2).1 =
        some 3 :=
  ⟨by decide, createState_roundTrip [] "a" 3 0 5 (by decide)⟩

/-- C6: after `deleteStateData`, `getStateData` on the same token returns
NotFound (`none`) and leaves the deleted-from store unchanged, at every
time, until a new entry is created under the token. -/
theorem deleteStateData_consumes {α : Type} (s : Store α) (t : String)
    (now : Int) :
    getStateData t now (deleteStateData t s) =
      (none, deleteStateData t s) :=
  getStateData_of_get_none _ _ _ (mapGet_mapDelete_self _ _)

/-- C7: a successful `getStateData` leaves the store unchanged, so the
read can be repeated with the same result; retrieval does not consume
the entry. -/
theorem getStateData_frame {α : Type} (s : Store α) (t : String)
    (now : Int) (d : α) (h : (getStateData t now s).1 = some d) :
    getStateData t now s = (some d, s)
    ∧ getStateData t now ((getStateData t now s).2) = (some d, s) := by
  cases hg : mapGet s t with
  | none =>
      rw [getStateData_of_get_none _ _ _ hg] at h
      simp at h
  | some sd =>
      rw [getStateData_of_get_some _ _ _ _ hg] at h
      by_cases hexp : now - sd.createdAt > STATE_EXPIRATION_MS
      · rw [if_pos hexp] at h
        simp at h
      · rw [if_neg hexp] at h
        have hd : sd.data = d := by simpa using h
        have he : getStateData t now s = (some d, s) := by
          rw [getStateData_of_get_some _ _ _ _ hg, if_neg hexp, hd]
        refine ⟨he, ?_⟩
        rw [he]
        exact he

/-- Witness for C7 on a concrete live entry. -/
theorem getStateData_frame_witness :
    (getStateData "a" 10 [("a", (⟨4, 0⟩ : StateData Nat))]).1 = some 4
    ∧ (getStateData "a" 10 [("a", (⟨4, 0⟩ : StateData Nat))] =
        (some 4, [("a", (⟨4, 0⟩ : StateData Nat))])
      ∧ getStateData "a" 10
          ((getStateData "a" 10 [("a", (⟨4, 0⟩ : StateData Nat))]).2) =
        (some 4, [("a", (⟨4, 0⟩ : StateData Nat))])) :=
  ⟨by decide, getStateData_frame [("a", ⟨4, 0⟩)] "a" 10 4 (by decide)⟩

/-- C8: `getStateData` is a total function on arbitrary token strings
(the source has no throwing path: a miss of the underlying map lookup is
handled by returning `null`), and it surfaces the same NotFound value
`none` whether the token is absent (never issued or already consumed) or
present but expired. -/
theorem getStateData_notFound_uniform {α : Type} (s : Store α)
    (t : String) (now : Int)
    (h : mapGet s t = none ∨
      ∃ sd, mapGet s t = some sd ∧
        now - sd.createdAt > STATE_EXPIRATION_MS) :
    (getStateData t now s).1 = none := by
  rcases h with h | ⟨sd, hg, hexp⟩
  · rw [getStateData_of_get_none _ _ _ h]
  · rw [getStateData_of_get_some _ _ _ _ hg, if_pos hexp]

/-- Witness for C8 on a token never issued. -/
theorem getStateData_notFound_uniform_witness :
    (mapGet ([] : Store Nat) "zz" = none ∨
      ∃ sd, mapGet ([] : Store Nat) "zz" = some sd ∧
        (0 : Int) - sd.createdAt > STATE_EXPIRATION_MS)
    ∧ (getStateData "zz" 0 ([] : Store Nat)).1 = none :=
  ⟨Or.inl rfl, getStateData_notFound_uniform [] "zz" 0 (Or.inl rfl)⟩

/-- C9: deleting an absent token is a no-op on the store (and raises no
error: the source only branches on the `Map.delete` result to pick a log
line), and a second delete in succession leaves the store exactly as the
first left it. -/
theorem deleteStateData_idempotent {α : Type} (s s2 : Store α)
    (t : String) (h : mapGet s t = none) :
    deleteStateData t s = s
    ∧ deleteStateData t (deleteStateData t s2) = deleteStateData t s2 :=
  ⟨mapDelete_eq_self_of_get_none _ _ h,
    mapDelete_eq_self_of_get_none _ _ (mapGet_mapDelete_self _ _)⟩

/-- Witness for C9: deleting a token absent from a one-entry store, and
double deletion of a present token. -/
theorem deleteStateData_idempotent_witness :
    mapGet [("b", (⟨1, 0⟩ : StateData Nat))] "a" = none
    ∧ (deleteStateData "a" [("b", (⟨1, 0⟩ : StateData Nat))] =
        [("b", (⟨1, 0⟩ : StateData Nat))]
      ∧ deleteStateData "a"
          (deleteStateData "a" [("a", (⟨2, 0⟩ : StateData Nat))]) =
        deleteStateData "a" [("a", (⟨2, 0⟩ : StateData Nat))]) :=
  ⟨by decide,
    deleteStateData_idempotent [("b", ⟨1, 0⟩)] [("a", ⟨2, 0⟩)] "a"
      (by decide)⟩

/-- C3: under the documented contract of crypto.randomUUID (the tokens
generated across a call sequence are pairwise distinct, the only
uniqueness mechanism the source has), N createState calls return N
pairwise distinct tokens; the store keeps its keys duplicate-free, and
at the moment createState returns its token is bound to exactly the
entry just created, hence not in use by another live entry. -/
theorem createState_tokens_unique {α : Type} (toks : List (String × α))
    (now : Int) (s : Store α)
    (hfresh : (toks.map Prod.fst).Nodup)
    (hkeys : (keys s).Nodup) :
    (createStates toks now s).1.Nodup
    ∧ (keys (createStates toks now s).2).Nodup
    ∧ (∀ (t2 : String) (d : α) (s2 : Store α),
        mapGet (createState t2 now d s2).2 t2 = some ⟨d, now⟩) := by
  refine ⟨?_, nodup_keys_createStates toks now s hkeys, ?_⟩
  · rw [createStates_tokens]
    exact hfresh
  · intro t2 d s2
    exact mapGet_mapSet_self _ _ _

/-- Witness for C3 on two concrete fresh tokens over the empty store. -/
theorem createState_tokens_unique_witness :
    (([("a", (1 : Nat)), ("b", 2)].map Prod.fst).Nodup)
    ∧ ((keys ([] : Store Nat)).Nodup)
    ∧ ((createStates [("a", (1 : Nat)), ("b", 2)] 0 []).1.Nodup
      ∧ (keys (createStates [("a", (1 : Nat)), ("b", 2)] 0 []).2).Nodup
      ∧ (∀ (t2 : String) (d : Nat) (s2 : Store Nat),
          mapGet (createState t2 0 d s2).2 t2 = some ⟨d, 0⟩)) :=
  ⟨by decide, by decide,
    createState_tokens_unique [("a", 1), ("b", 2)] 0 []
      (by decide) (by decide)⟩

/-- C4: invoking the sweep clearExpiredStateData at any time removes
exactly the entries with now - createdAt > TTL and retains every other
entry with payload and createdAt untouched; the sweep triggered at the
start of createState does the same to every entry other than the newly
created token. -/
theorem clearExpired_removes_exactly {α : Type} (now : Int) (s : Store α)
    (t k : String) (d : α) (sd : StateData α) (hk : k ≠ t) :
    ((k, sd) ∈ clearExpiredStateData now s ↔
      (k, sd) ∈ s ∧ now - sd.createdAt ≤ STATE_EXPIRATION_MS)
    ∧ ((k, sd) ∈ (createState t now d s).2 ↔
      (k, sd) ∈ s ∧ now - sd.createdAt ≤ STATE_EXPIRATION_MS) := by
  have h1 := mem_clearExpiredStateData now s k sd
  rw [not_lt] at h1
  refine ⟨h1, ?_⟩
  rw [show (createState t now d s).2 =
      mapSet (clearExpiredStateData now s) t ⟨d, now⟩ from rfl]
  rw [mem_mapSet_of_ne _ _ _ _ _ hk]
  exact h1

/-- Witness for C4 on a concrete store with one expired and one live
entry, swept at time 700000. -/
theorem clearExpired_removes_exactly_witness :
    ("c" : String) ≠ "a"
    ∧ ((("c", (⟨6, 500000⟩ : StateData Nat)) ∈
        clearExpiredStateData 700000
          [("b", (⟨5, 0⟩ : StateData Nat)), ("c", ⟨6, 500000⟩)] ↔
      ("c", (⟨6, 500000⟩ : StateData Nat)) ∈
          [("b", (⟨5, 0⟩ : StateData Nat)), ("c", ⟨6, 500000⟩)]
        ∧ (700000 : Int) - 500000 ≤ STATE_EXPIRATION_MS)
    ∧ (("c", (⟨6, 500000⟩ : StateData Nat)) ∈
        (createState "a" 700000 (9 : Nat)
          [("b", (⟨5, 0⟩ : StateData Nat)), ("c", ⟨6, 500000⟩)]).2 ↔
      ("c", (⟨6, 500000⟩ : StateData Nat)) ∈
          [("b", (⟨5, 0⟩ : StateData Nat)), ("c", ⟨6, 500000⟩)]
        ∧ (700000 : Int) - 500000 ≤ STATE_EXPIRATION_MS)) :=
  ⟨by decide,
    clearExpired_removes_exactly 700000
      [("b", ⟨5, 0⟩), ("c", ⟨6, 500000⟩)] "a" "c" 9 ⟨6, 500000⟩
      (by decide)⟩

/-- C5: in handleGithubCallback, a getStateData miss on the state query
parameter produces exactly the 401 rejection trace, with no token
exchange and the store as getStateData left it; a hit makes the handler
call deleteStateData immediately, before the environment check and
before the code-for-token exchange starts, the store ending as the
deletion of the state token. -/
theorem github_callback_state_contract {α : Type} (code st : String)
    (env : Env) (now : Int) (s : Store α) (res : Option α)
    (hres : (getStateData st now s).1 = res) :
    (handleGithubCallback (some code) (some st) env now s).1 =
      (match res with
       | none => [Event.getState st, Event.respond 401]
       | some _ => Event.getState st :: Event.deleteState st ::
           (match env.clientId, env.clientSecret, env.redirectUri with
            | some _, some _, some _ => [Event.tokenExchange code]
            | _, _, _ => [Event.respond 500]))
    ∧ (handleGithubCallback (some code) (some st) env now s).2 =
      (match res with
       | none => (getStateData st now s).2
       | some _ => deleteStateData st (getStateData st now s).2) := by
  obtain ⟨ci, cs, ru⟩ := env
  cases res with
  | none => simp [handleGithubCallback, hres]
  | some d =>
      cases ci <;> cases cs <;> cases ru <;>
        simp [handleGithubCallback, hres, deleteStateData]

/-- Witness for C5 on a concrete valid state with a full environment. -/
theorem github_callback_state_contract_witness :
    (getStateData "a" 0 [("a", (⟨7, 0⟩ : StateData Nat))]).1 = some 7
    ∧ ((handleGithubCallback (some "c") (some "a")
          ⟨some "i", some "k", some "r"⟩ 0
          [("a", (⟨7, 0⟩ : StateData Nat))]).1 =
        (match (some 7 : Option Nat) with
         | none => [Event.getState "a", Event.respond 401]
         | some _ => Event.getState "a" :: Event.deleteState "a" ::
             (match (Env.mk (some "i") (some "k") (some "r")).clientId,
                 (Env.mk (some "i") (some "k") (some "r")).clientSecret,
                 (Env.mk (some "i") (some "k") (some "r")).redirectUri with
              | some _, some _, some _ => [Event.tokenExchange "c"]
              | _, _, _ => [Event.respond 500]))
      ∧ (handleGithubCallback (some "c") (some "a")
          ⟨some "i", some "k", some "r"⟩ 0
          [("a", (⟨7, 0⟩ : StateData Nat))]).2 =
        (match (some 7 : Option Nat) with
         | none =>
            (getStateData "a" 0 [("a", (⟨7, 0⟩ : StateData Nat))]).2
         | some _ => deleteStateData "a"
            (getStateData "a" 0 [("a", (⟨7, 0⟩ : StateData Nat))]).2)) :=
  ⟨by decide,
    github_callback_state_contract "c" "a"
      ⟨some "i", some "k", some "r"⟩ 0 [("a", ⟨7, 0⟩)] (some 7)
      (by decide)⟩

/-- C10: for an entry present in a store with duplicate-free keys, the
lazy expiry path of getStateData and the eager sweep
clearExpiredStateData agree at the same now: getStateData returns none
exactly when now - createdAt > 600000, the sweep drops the entry exactly
then, and getStateData deletes the entry exactly then. -/
theorem expiry_paths_agree {α : Type} (s : Store α) (t : String)
    (sd : StateData α) (now : Int)
    (hnd : (keys s).Nodup) (hget : mapGet s t = some sd) :
    ((getStateData t now s).1 = none ↔
      now - sd.createdAt > STATE_EXPIRATION_MS)
    ∧ (mapGet (clearExpiredStateData now s) t = none ↔
      now - sd.createdAt > STATE_EXPIRATION_MS)
    ∧ mapGet (getStateData t now s).2 t =
      (if now - sd.createdAt > STATE_EXPIRATION_MS then none
       else some sd) := by
  rw [getStateData_of_get_some _ _ _ _ hget,
      mapGet_clearExpired_of_get_some now s t sd hnd hget]
  by_cases hexp : now - sd.createdAt > STATE_EXPIRATION_MS
  · simp [hexp, mapGet_mapDelete_self, hget]
  · simp [hexp, hget]

/-- Witness for C10 on a concrete one-entry store read past the TTL. -/
theorem expiry_paths_agree_witness :
    (keys [("a", (⟨3, 0⟩ : StateData Nat))]).Nodup
    ∧ mapGet [("a", (⟨3, 0⟩ : StateData Nat))] "a" = some ⟨3, 0⟩
    ∧ (((getStateData "a" 600001
          [("a", (⟨3, 0⟩ : StateData Nat))]).1 = none ↔
        (600001 : Int) - 0 > STATE_EXPIRATION_MS)
      ∧ (mapGet (clearExpiredStateData 600001
          [("a", (⟨3, 0⟩ : StateData Nat))]) "a" = none ↔
        (600001 : Int) - 0 > STATE_EXPIRATION_MS)
      ∧ mapGet (getStateData "a" 600001
          [("a", (⟨3, 0⟩ : StateData Nat))]).2 "a" =
        (if (600001 : Int) - 0 > STATE_EXPIRATION_MS then none
         else some ⟨3, 0⟩)) :=
  ⟨by decide, by decide,
    expiry_paths_agree [("a", ⟨3, 0⟩)] "a" ⟨3, 0⟩ 600001
      (by decide) (by decide)⟩
